import Mathlib

/-!
Verification of the houselinux time-series reduction and ring-buffer
sampling engine, as a shallow embedding of the C sources.

Conventions of the embedding:
* C `long long` values become `Int`; C division on `long long` truncates
  toward zero and is rendered `Int.tdiv`.
* C `time_t` values are nonnegative in this program and become `Nat`.
* Fixed C arrays become `List` values; `arr[i] = x` becomes `List.set`,
  reads become `List.getD` (the bounds are settled separately).
* `snprintf` returns the length the formatted text would occupy, and
  stores at most `size - 1` characters; output buffers are modelled by
  the formatted fragment, cursors by its accumulated length.
* The `qsort` call with an ascending `long long` comparator is modelled
  by an executable ascending sort: both produce the unique ascending
  permutation of the window.
-/

/-! ## Constants from the C sources -/

def HOUSE_CPU_PERIOD : Nat := 5

def HOUSE_CPU_SPAN : Nat := 60

def HOUSE_DISKIO_PERIOD : Nat := 5

def HOUSE_DISKIO_SPAN : Nat := 60

def HOUSE_NETIO_PERIOD : Nat := 5

def HOUSE_NETIO_SPAN : Nat := 60

def HOUSE_TEMP_PERIOD : Nat := 5

def HOUSE_TEMP_SPAN : Nat := 60

def HOUSE_MEMORY_PERIOD : Nat := 10

def HOUSE_MEMORY_SPAN : Nat := 30

def HOUSE_MOUNT_PERIOD : Nat := 60

def HOUSE_MOUNT_SPAN : Nat := 5

/-! ## houselinux_reduce.c -/

/-- Ascending insertion into a sorted list, the building block of the
executable sort below. -/
def insertAsc (x : Int) : List Int → List Int
  | [] => [x]
  | y :: t => if x ≤ y then x :: y :: t else y :: insertAsc x t

/-- The scratch copy of the value window, sorted ascending: models the
copy into `SortedMetrics` followed by `qsort` with
`houselinux_reduce_compare` (sign of the difference). The ascending
permutation of a list of integers is unique, so any correct ascending
sort models the qsort call; insertion sort is used because it reduces
inside the kernel. -/
def sortedMetrics : List Int → List Int
  | [] => []
  | x :: t => insertAsc x (sortedMetrics t)

/-- Fragment `,"name":[value,"unit"]` produced when all values are equal
and nonzero. -/
def fragEqual (name : String) (v : Int) (unit : String) : String :=
  ",\"" ++ name ++ "\":[" ++ toString v ++ ",\"" ++ unit ++ "\"]"

/-- Fragment `,"name":[min,max,"unit"]` produced for fewer than 10
samples. -/
def fragMinMax (name : String) (vmin vmax : Int) (unit : String) : String :=
  ",\"" ++ name ++ "\":[" ++ toString vmin ++ "," ++ toString vmax ++
    ",\"" ++ unit ++ "\"]"

/-- Fragment `,"name":[min,median,max,"unit"]` produced for 10 or more
samples. -/
def fragMinMedMax (name : String) (vmin med vmax : Int) (unit : String) : String :=
  ",\"" ++ name ++ "\":[" ++ toString vmin ++ "," ++ toString med ++ "," ++
    toString vmax ++ ",\"" ++ unit ++ "\"]"

/-- The text `houselinux_reduce_json` formats (before any truncation by
the destination buffer): the branch structure of lines 75-108 of
houselinux_reduce.c, reading `SortedMetrics[0]`, `SortedMetrics[last]`
with `last = count - 1`, and the two middle elements for the median. -/
def houselinux_reduce_fragment (name : String) (values : List Int)
    (unit : String) : String :=
  let sorted := sortedMetrics values
  let last := values.length - 1
  if sorted.getD 0 0 = sorted.getD last 0 then
    if sorted.getD 0 0 = 0 then ""
    else fragEqual name (sorted.getD 0 0) unit
  else if 10 ≤ values.length then
    let median :=
      if values.length % 2 = 1 then sorted.getD (values.length / 2) 0
      else Int.tdiv (sorted.getD (values.length / 2 - 1) 0 +
                     sorted.getD (values.length / 2) 0) 2
    fragMinMedMax name (sorted.getD 0 0) median (sorted.getD last 0) unit
  else fragMinMax name (sorted.getD 0 0) (sorted.getD last 0) unit

/-- The median as the specification states it: the middle element of the
ascending sort for an odd count, the truncated average of the two middle
elements for an even count. -/
def specMedian (values : List Int) : Int :=
  let sorted := sortedMetrics values
  if values.length % 2 = 1 then sorted.getD (values.length / 2) 0
  else Int.tdiv (sorted.getD (values.length / 2 - 1) 0 +
                 sorted.getD (values.length / 2) 0) 2

/-- Result of `houselinux_reduce_json`: the characters stored in the
destination buffer (snprintf keeps one byte for the terminating NUL) and
the returned length. -/
structure ReduceOut where
  buffer : List Char
  ret : Nat
deriving Repr, DecidableEq

/-- `houselinux_reduce_json`: formats the fragment into a buffer of
`size` bytes and applies the final `if (cursor >= size) return 0` of
line 110 of houselinux_reduce.c. -/
def houselinux_reduce_json (size : Nat) (name : String) (values : List Int)
    (unit : String) : ReduceOut :=
  let frag := houselinux_reduce_fragment name values unit
  let cursor := frag.length
  { buffer := frag.toList.take (size - 1),
    ret := if size ≤ cursor then 0 else cursor }

/-- The `int last = count - 1` computation of line 62, on C ints. -/
def lastIndex (count : Int) : Int := count - 1

/-- The return value of `houselinux_reduce_json` alone, as the callers
accumulate it into their cursor. -/
def reduceRet (size : Nat) (name : String) (values : List Int)
    (unit : String) : Nat :=
  (houselinux_reduce_json size name values unit).ret

/-! ## houselinux_cpu.c: status emitter -/

/-- The per-slot CPU metrics rings and load averages
(struct HouseCpuMetrics). -/
structure HouseCpuMetrics where
  timestamp : List Nat
  busy : List Int
  iowait : List Int
  steal : List Int
  load1 : Int
  load5 : Int
  load15 : Int
deriving Repr, DecidableEq, Inhabited

def cpuHeader : String := ",\"cpu\":"

/-- The `,"load":[l1,l5,l15,0]` fragment of houselinux_cpu.c line 101. -/
def loadFragment (st : HouseCpuMetrics) : String :=
  ",\"load\":[" ++ toString st.load1 ++ "," ++ toString st.load5 ++ "," ++
    toString st.load15 ++ ",0]"

/-- Common tail of the cpu status emitter: the no-data check of line 108
followed by the closing brace and its overflow check. -/
def finishCpu (size start cursor : Nat) : Nat :=
  if cursor ≤ start then 0
  else if size ≤ cursor + 1 then 0
  else cursor + 1

/-- `houselinux_cpu_status`: emits the cpu header, the three reduced
rings, the optional load fragment and the closing brace, returning 0 at
each overflow check. -/
def houselinux_cpu_status (size : Nat) (st : HouseCpuMetrics) : Nat :=
  let cursor := cpuHeader.length
  if size ≤ cursor then 0
  else
    let start := cursor
    let cursor := cursor + reduceRet (size - cursor) "busy" st.busy "%"
    if size ≤ cursor then 0
    else
      let cursor := cursor + reduceRet (size - cursor) "iowait" st.iowait "%"
      if size ≤ cursor then 0
      else
        let cursor := cursor + reduceRet (size - cursor) "steal" st.steal "%"
        if size ≤ cursor then 0
        else
          if 0 < st.load1 ∨ 0 < st.load5 ∨ 0 < st.load15 then
            let cursor := cursor + (loadFragment st).length
            if size ≤ cursor then 0
            else finishCpu size start cursor
          else finishCpu size start cursor

/-! ## houselinux_storage.c: status emitter -/

/-- One mount point slot (struct HouseMountPoint with its metrics):
`detected` is the registration timestamp, zero when the slot is unused;
`size` is the total capacity in MB; `free` is the ring of free-space
samples. -/
structure HouseMountPoint where
  detected : Nat
  mount : String
  size : Int
  free : List Int
deriving Repr, DecidableEq, Inhabited

def storageHeader : String := ",\"storage\":\x7b"

/-- The `sep"mount":{"size":[nn,"MB"]` fragment of houselinux_storage.c
line 121. -/
def volumeHeader (sep : String) (v : HouseMountPoint) : String :=
  sep ++ "\"" ++ v.mount ++ "\":\x7b\"size\":[" ++ toString v.size ++
    ",\"MB\"]"

/-- Cursor after the volume header snprintf. -/
def volumeCursor (cursor : Nat) (sep : String) (v : HouseMountPoint) : Nat :=
  cursor + (volumeHeader sep v).length

/-- Cursor after the reduced free ring and the per-volume closing
brace. -/
def volumeEnd (size cursor : Nat) (sep : String) (v : HouseMountPoint) : Nat :=
  volumeCursor cursor sep v +
    reduceRet (size - volumeCursor cursor sep v) "free" v.free "MB" + 1

/-- The volume loop of `houselinux_storage_status` (lines 113-135):
returns the final cursor and the rollback point `saved`, which only
advances past a completely emitted volume. -/
def storageLoop (size : Nat) :
    List HouseMountPoint → String → Nat → Nat → Nat × Nat
  | [], _, cursor, saved => (cursor, saved)
  | v :: rest, sep, cursor, saved =>
    if v.detected = 0 ∨ v.size = 0 then storageLoop size rest sep cursor saved
    else if size ≤ volumeCursor cursor sep v then
      (volumeCursor cursor sep v, saved)
    else if size ≤ volumeEnd size cursor sep v then
      (volumeEnd size cursor sep v, saved)
    else
      storageLoop size rest "," (volumeEnd size cursor sep v)
        (volumeEnd size cursor sep v)

/-- `houselinux_storage_status`: returns 0 when the header does not fit,
otherwise runs the volume loop and appends the closing brace at the
rollback point `saved` (lines 137-139). -/
def houselinux_storage_status (size : Nat) (volumes : List HouseMountPoint) : Nat :=
  if size ≤ storageHeader.length then 0
  else
    (storageLoop size volumes "" storageHeader.length storageHeader.length).2 + 1

/-! ## houselinux_cpu.c: sampler -/

/-- The total tick delta of houselinux_cpu.c line 238: the sum of the
deltas of items 0 to 7 (guest items excluded). -/
def totalDelta (value previous : List Int) : Int :=
  ((List.range 8).map (fun i => value.getD i 0 - previous.getD i 0)).sum

/-- The metric computation of `houselinux_cpu_stat` once the aggregated
cpu line is parsed (lines 235-251): busy and iowait are first reset
(line 190), then written when the total delta is positive; `steal` has
no reset. -/
def houselinux_cpu_stat_record (value previous : List Int) (index : Nat)
    (m : HouseCpuMetrics) : HouseCpuMetrics :=
  let m0 := { m with busy := m.busy.set index 0, iowait := m.iowait.set index 0 }
  let total := totalDelta value previous
  if total ≤ 0 then m0
  else
    let steal := value.getD 7 0 - previous.getD 7 0
    let iowait := value.getD 4 0 - previous.getD 4 0
    let idle := (value.getD 3 0 - previous.getD 3 0) + iowait
    { m0 with
      busy := m0.busy.set index (Int.tdiv (100 * (total - idle)) total),
      iowait := m0.iowait.set index (Int.tdiv (100 * iowait) total),
      steal := m0.steal.set index (Int.tdiv (100 * steal) total) }

/-- The load-average update of `houselinux_cpu_load`. -/
def houselinux_cpu_load_record (loads : Int × Int × Int)
    (m : HouseCpuMetrics) : HouseCpuMetrics :=
  { m with load1 := loads.1, load5 := loads.2.1, load15 := loads.2.2 }

/-- The static state of the cpu module: the next collect time (the
`NextCpuCollect` static, zero before the first call), the raw counter
baseline (the `Previous` static) and the published metrics. -/
structure HouseCpuModule where
  nextCollect : Nat
  previous : List Int
  latest : HouseCpuMetrics
deriving Repr, DecidableEq, Inhabited

/-- `houselinux_cpu_background`: on the first call only the baseline is
stored (the `houselinux_cpu_stat (0, 0)` call of line 267); afterwards
the slot `(now / PERIOD) % SPAN` is computed and timestamped. The raw
counters and load averages read from /proc are parameters. -/
def houselinux_cpu_background (now : Nat) (raw : List Int)
    (loads : Int × Int × Int) (st : HouseCpuModule) : HouseCpuModule :=
  if now < st.nextCollect then st
  else if st.nextCollect = 0 then
    { st with nextCollect := now + HOUSE_CPU_PERIOD, previous := raw }
  else
    let index := (now / HOUSE_CPU_PERIOD) % HOUSE_CPU_SPAN
    let m := houselinux_cpu_stat_record raw st.previous index st.latest
    let m := houselinux_cpu_load_record loads m
    { nextCollect := now + HOUSE_CPU_PERIOD,
      previous := raw,
      latest := { m with timestamp := m.timestamp.set index now } }

/-! ## houselinux_diskio.c: sampler -/

/-- One tracked disk device (struct HouseDiskIOMetrics). -/
structure HouseDiskIOMetrics where
  major : Int
  minor : Int
  device : String
  timestamps : List Nat
  rdrate : List Int
  wrrate : List Int
  rdwait : List Int
  wrwait : List Int
  previous : List Int
deriving Repr, DecidableEq, Inhabited

/-- A parsed /proc/diskstats line: device numbers and the counter
fields. -/
structure DiskLine where
  major : Int
  minor : Int
  value : List Int
deriving Repr, DecidableEq, Inhabited

/-- `houselinux_diskio_find`: index of the device entry matching the
major and minor numbers. The C stores the pair with the two fields
swapped by both `add` and `find`, consistently, so matching is on the
raw pair. -/
def houselinux_diskio_find (devices : List HouseDiskIOMetrics)
    (major minor : Int) : Option Nat :=
  devices.findIdx? (fun d => d.major == major && d.minor == minor)

/-- `houselinux_diskio_add`: appends a new device entry with the given
baseline, as the initialization discovery does (lines 81-95, 145-147);
the rings of a fresh entry are taken as zero. -/
def houselinux_diskio_add (devices : List HouseDiskIOMetrics)
    (major minor : Int) (device : String) (previous : List Int) :
    List HouseDiskIOMetrics :=
  devices ++ [{ major := major, minor := minor, device := device,
                timestamps := List.replicate HOUSE_DISKIO_SPAN 0,
                rdrate := List.replicate HOUSE_DISKIO_SPAN 0,
                wrrate := List.replicate HOUSE_DISKIO_SPAN 0,
                rdwait := List.replicate HOUSE_DISKIO_SPAN 0,
                wrwait := List.replicate HOUSE_DISKIO_SPAN 0,
                previous := previous }]

/-- The per-line metric update of `houselinux_diskio_stat`
(lines 323-344): rates divide the counter deltas by the sampling
period, waits divide the wait delta by the completed count. -/
def houselinux_diskio_record (value : List Int) (now : Nat) (index : Nat)
    (m : HouseDiskIOMetrics) : HouseDiskIOMetrics :=
  let count := value.getD 0 0 - m.previous.getD 0 0
  let wait := value.getD 3 0 - m.previous.getD 3 0
  let count2 := value.getD 4 0 - m.previous.getD 4 0
  let wait2 := value.getD 7 0 - m.previous.getD 7 0
  { m with
    rdrate := m.rdrate.set index (Int.tdiv count (HOUSE_DISKIO_PERIOD : Int)),
    rdwait := m.rdwait.set index (if count ≤ 0 then 0 else Int.tdiv wait count),
    wrrate := m.wrrate.set index (Int.tdiv count2 (HOUSE_DISKIO_PERIOD : Int)),
    wrwait := m.wrwait.set index (if count2 ≤ 0 then 0 else Int.tdiv wait2 count2),
    timestamps := m.timestamps.set index now,
    previous := value }

/-- `houselinux_diskio_stat`: walks the /proc/diskstats lines, updates
the matching known entries and skips the rest (line 293 continues on an
unknown device; no entry is ever created here). -/
def houselinux_diskio_stat (index : Nat) (now : Nat) :
    List DiskLine → List HouseDiskIOMetrics → List HouseDiskIOMetrics
  | [], devices => devices
  | line :: rest, devices =>
    match houselinux_diskio_find devices line.major line.minor with
    | none => houselinux_diskio_stat index now rest devices
    | some i => houselinux_diskio_stat index now rest
        (devices.set i (houselinux_diskio_record line.value now index
          (devices.getD i default)))

/-- The static state of the diskio module. -/
structure HouseDiskIOModule where
  next : Nat
  devices : List HouseDiskIOMetrics
deriving Repr, DecidableEq, Inhabited

/-- `houselinux_diskio_background`: the first call does nothing beyond
arming the timer (the baseline was stored by initialization); later
calls sample every device. -/
def houselinux_diskio_background (now : Nat) (lines : List DiskLine)
    (st : HouseDiskIOModule) : HouseDiskIOModule :=
  if now < st.next then st
  else if st.next = 0 then { st with next := now + HOUSE_DISKIO_PERIOD }
  else
    { next := now + HOUSE_DISKIO_PERIOD,
      devices := houselinux_diskio_stat
        ((now / HOUSE_DISKIO_PERIOD) % HOUSE_DISKIO_SPAN) now lines st.devices }

/-! ## houselinux_netio.c: sampler -/

/-- One tracked network device (struct HouseNetIOMetrics). -/
structure HouseNetIOMetrics where
  device : String
  timestamps : List Nat
  rxrate : List Int
  txrate : List Int
  previous : List Int
deriving Repr, DecidableEq, Inhabited

/-- A parsed /proc/net/dev line. -/
structure NetLine where
  device : String
  value : List Int
deriving Repr, DecidableEq, Inhabited

/-- `houselinux_netio_find`: index of the entry with the given device
name. -/
def houselinux_netio_find (devices : List HouseNetIOMetrics)
    (device : String) : Option Nat :=
  devices.findIdx? (fun d => d.device == device)

/-- The per-line metric update of `houselinux_netio_stat`
(lines 289-298). -/
def houselinux_netio_record (value : List Int) (now : Nat) (index : Nat)
    (m : HouseNetIOMetrics) : HouseNetIOMetrics :=
  let rx := value.getD 0 0 - m.previous.getD 0 0
  let tx := value.getD 8 0 - m.previous.getD 8 0
  { m with
    rxrate := m.rxrate.set index
      (Int.tdiv (Int.tdiv rx 1024) (HOUSE_NETIO_PERIOD : Int)),
    txrate := m.txrate.set index
      (Int.tdiv (Int.tdiv tx 1024) (HOUSE_NETIO_PERIOD : Int)),
    timestamps := m.timestamps.set index now,
    previous := value }

/-- `houselinux_netio_stat`: updates known devices, skips unknown lines
(line 260); no entry is ever created here. -/
def houselinux_netio_stat (index : Nat) (now : Nat) :
    List NetLine → List HouseNetIOMetrics → List HouseNetIOMetrics
  | [], devices => devices
  | line :: rest, devices =>
    match houselinux_netio_find devices line.device with
    | none => houselinux_netio_stat index now rest devices
    | some i => houselinux_netio_stat index now rest
        (devices.set i (houselinux_netio_record line.value now index
          (devices.getD i default)))

/-! ## houselinux_memory.c: sampler -/

/-- The values parsed from /proc/meminfo, already in MB. -/
structure MemInfoRaw where
  memtotal : Int
  memavailable : Int
  memdirty : Int
  swaptotal : Int
  swapfree : Int
deriving Repr, DecidableEq, Inhabited

/-- One slot of the memory ring (struct HouseMemoryMetrics). -/
structure MemSlot where
  timestamp : Nat
  memtotal : Int
  memavailable : Int
  memdirty : Int
  swaptotal : Int
  swapfree : Int
deriving Repr, DecidableEq, Inhabited

/-- The slot written by one memory sample: the parsed values and the
sample time. -/
def memSlotOf (now : Nat) (raw : MemInfoRaw) : MemSlot :=
  { timestamp := now, memtotal := raw.memtotal,
    memavailable := raw.memavailable, memdirty := raw.memdirty,
    swaptotal := raw.swaptotal, swapfree := raw.swapfree }

/-- The static state of the memory module. -/
structure HouseMemoryModule where
  next : Nat
  slots : List MemSlot
deriving Repr, DecidableEq, Inhabited

/-- `houselinux_memory_background` (lines 218-229): no priming, the
slot `(now / PERIOD) % SPAN` is sampled and timestamped on every due
call, including the very first one. -/
def houselinux_memory_background (now : Nat) (raw : MemInfoRaw)
    (st : HouseMemoryModule) : HouseMemoryModule :=
  if now < st.next then st
  else
    { next := now + HOUSE_MEMORY_PERIOD,
      slots := st.slots.set ((now / HOUSE_MEMORY_PERIOD) % HOUSE_MEMORY_SPAN)
        (memSlotOf now raw) }

/-! ## houselinux_reduce_details_json -/

/-- Modelled from the spec: the body of `houselinux_reduce_details_json`
is not part of the source tree (houselinux_reduce.h declares it and
every family calls it, but no definition is present under src); its
behavior follows sections 4.4 and 8 of the spec. This is the treatment
of the n-th visited slot: the slot index wraps around the ring, a zero
timestamp (never written) is skipped, and a nonzero `since` cuts off
the entries at or before it. -/
def detailsSlotFn (since now period span : Nat) (timestamps : List Nat)
    (values : List Int) (n : Nat) : Option (Nat × Int) :=
  let i := (now / period + 1 + n) % span
  let t := timestamps.getD i 0
  if t = 0 then none
  else if since ≠ 0 ∧ t ≤ since then none
  else some (t, values.getD i 0)

/-- Modelled from the spec: the `(timestamp, value)` pairs emitted by
`houselinux_reduce_details_json`, walking the ring starting at slot
`(now/PERIOD + 1) % SPAN` and wrapping to the most recent slot. -/
def houselinux_reduce_details_entries (since now period span : Nat)
    (timestamps : List Nat) (values : List Int) : List (Nat × Int) :=
  (List.range span).filterMap
    (detailsSlotFn since now period span timestamps values)

/-- The ring-buffer invariant of spec section 3: a populated slot holds
a timestamp no newer than `now`, within the span window, whose
period-quotient selects exactly that slot. -/
@[reducible]
def RingValid (now period span : Nat) (timestamps : List Nat) : Prop :=
  0 < period ∧ 0 < span ∧
  ∀ i, i < span →
    timestamps.getD i 0 = 0 ∨
    (timestamps.getD i 0 ≤ now ∧
     now / period < timestamps.getD i 0 / period + span ∧
     (timestamps.getD i 0 / period) % span = i)

/-- The stable identity of a disk entry: major and minor numbers and
the display name. -/
def diskKey (d : HouseDiskIOMetrics) : Int × Int × String :=
  (d.major, d.minor, d.device)

/-- The stable identity of a network entry: the device name. -/
def netKey (d : HouseNetIOMetrics) : String := d.device

/-! ## Concrete sample states -/

/-- A mount point used by the storage status theorems. -/
def mountRoot : HouseMountPoint :=
  { detected := 100, mount := "/", size := 100, free := [1, 1, 1, 1, 1] }

/-- A cpu metrics state with all rings empty. -/
def cpuMetricsInit : HouseCpuMetrics :=
  { timestamp := List.replicate 60 0, busy := List.replicate 60 0,
    iowait := List.replicate 60 0, steal := List.replicate 60 0,
    load1 := 0, load5 := 0, load15 := 0 }

/-- The cpu module state at process start. -/
def cpuModuleInit : HouseCpuModule :=
  { nextCollect := 0, previous := List.replicate 16 0, latest := cpuMetricsInit }

/-- A raw /proc/stat cpu line sample. -/
def rawStatSample : List Int :=
  [10, 0, 5, 80, 5, 0, 0, 0, 0, 0, 0, 0, 0, 0, 0, 0]

/-- A one-slot cpu metrics state whose steal ring holds a stale value. -/
def cpuStaleSteal : HouseCpuMetrics :=
  { timestamp := [0], busy := [1], iowait := [2], steal := [7],
    load1 := 0, load5 := 0, load15 := 0 }

/-- A parsed /proc/meminfo sample. -/
def memInfoSample : MemInfoRaw :=
  { memtotal := 8000, memavailable := 4000, memdirty := 10,
    swaptotal := 0, swapfree := 0 }

/-- An all-zero memory slot. -/
def memSlotZero : MemSlot :=
  { timestamp := 0, memtotal := 0, memavailable := 0, memdirty := 0,
    swaptotal := 0, swapfree := 0 }

/-- The memory module state at process start. -/
def memModuleInit : HouseMemoryModule :=
  { next := 0, slots := List.replicate 30 memSlotZero }

/-- A disk device entry with zero baseline and empty rings. -/
def diskDevSda : HouseDiskIOMetrics :=
  { major := 8, minor := 0, device := "sda",
    timestamps := List.replicate 60 0, rdrate := List.replicate 60 0,
    wrrate := List.replicate 60 0, rdwait := List.replicate 60 0,
    wrwait := List.replicate 60 0, previous := List.replicate 17 0 }

/-- A /proc/diskstats line for the known device. -/
def diskLineSda : DiskLine :=
  { major := 8, minor := 0, value := [100, 0, 0, 0, 50, 0, 0, 0] }

/-- A /proc/diskstats line for a device that was never discovered. -/
def diskLineNew : DiskLine :=
  { major := 259, minor := 0, value := [7, 0, 0, 0, 3, 0, 0, 0] }

/-- The diskio module state at process start. -/
def diskModuleInit : HouseDiskIOModule :=
  { next := 0, devices := [diskDevSda] }

/-- A network device entry with zero baseline and empty rings. -/
def netDevEth : HouseNetIOMetrics :=
  { device := "eth0", timestamps := List.replicate 60 0,
    rxrate := List.replicate 60 0, txrate := List.replicate 60 0,
    previous := List.replicate 16 0 }

/-- A /proc/net/dev line for an unknown device. -/
def netLineNew : NetLine :=
  { device := "wlan0", value := List.replicate 16 0 }

/-! ## Basic facts about the sorted scratch copy -/

theorem insertAsc_perm (x : Int) (l : List Int) :
    (insertAsc x l).Perm (x :: l) := by
  induction l with
  | nil => exact List.Perm.refl _
  | cons y t ih =>
    unfold insertAsc
    by_cases h : x ≤ y
    · rw [if_pos h]
    · rw [if_neg h]
      exact (ih.cons y).trans (List.Perm.swap x y t)

theorem insertAsc_sorted (x : Int) :
    ∀ (l : List Int), List.Pairwise (· ≤ ·) l →
      List.Pairwise (· ≤ ·) (insertAsc x l)
  | [] => by intro _; simp [insertAsc]
  | y :: t => by
    intro h
    unfold insertAsc
    by_cases hxy : x ≤ y
    · rw [if_pos hxy]
      refine List.Pairwise.cons ?_ h
      intro b hb
      rcases List.mem_cons.mp hb with h1 | h1
      · subst h1; exact hxy
      · exact le_trans hxy (List.rel_of_sorted_cons h b h1)
    · rw [if_neg hxy]
      refine List.Pairwise.cons ?_ (insertAsc_sorted x t h.tail)
      intro b hb
      have hmem : b ∈ x :: t := (insertAsc_perm x t).mem_iff.mp hb
      rcases List.mem_cons.mp hmem with h1 | h1
      · subst h1; omega
      · exact List.rel_of_sorted_cons h b h1

theorem sortedMetrics_perm : ∀ (values : List Int),
    (sortedMetrics values).Perm values
  | [] => List.Perm.refl _
  | x :: t => ((insertAsc_perm x (sortedMetrics t)).trans
      ((sortedMetrics_perm t).cons x))

theorem sortedMetrics_length (values : List Int) :
    (sortedMetrics values).length = values.length :=
  (sortedMetrics_perm values).length_eq

theorem sortedMetrics_sorted : ∀ (values : List Int),
    List.Pairwise (· ≤ ·) (sortedMetrics values)
  | [] => List.Pairwise.nil
  | x :: t => insertAsc_sorted x (sortedMetrics t) (sortedMetrics_sorted t)

theorem sortedMetrics_head_mem (values : List Int) (h : values ≠ []) :
    (sortedMetrics values).getD 0 0 ∈ values := by
  have hlen : 0 < (sortedMetrics values).length := by
    rw [sortedMetrics_length]
    exact List.length_pos.mpr h
  have := List.getD_eq_getElem (sortedMetrics values) 0 hlen
  rw [this]
  exact (sortedMetrics_perm values).mem_iff.mp (List.getElem_mem hlen)

theorem sortedMetrics_last_mem (values : List Int) (h : values ≠ []) :
    (sortedMetrics values).getD (values.length - 1) 0 ∈ values := by
  have hlen : values.length - 1 < (sortedMetrics values).length := by
    rw [sortedMetrics_length]
    have := List.length_pos.mpr h
    omega
  have := List.getD_eq_getElem (sortedMetrics values) 0 hlen
  rw [this]
  exact (sortedMetrics_perm values).mem_iff.mp (List.getElem_mem hlen)

theorem sorted_head_le {l : List Int} (hs : List.Pairwise (· ≤ ·) l) :
    ∀ x ∈ l, l.getD 0 0 ≤ x := by
  cases l with
  | nil => intro x hx; cases hx
  | cons a t =>
    intro x hx
    rcases List.mem_cons.mp hx with h | h
    · subst h; simp
    · simpa using List.rel_of_sorted_cons hs x h

theorem sorted_le_last :
    ∀ (l : List Int), List.Pairwise (· ≤ ·) l →
      ∀ x ∈ l, x ≤ l.getD (l.length - 1) 0
  | [] => by intro _ x hx; cases hx
  | [a] => by
    intro _ x hx
    rcases List.mem_cons.mp hx with h | h
    · subst h; simp
    · cases h
  | a :: b :: u => by
    intro hs x hx
    have hs1 : List.Pairwise (· ≤ ·) (b :: u) := hs.tail
    have hidx : (a :: b :: u).length - 1 = ((b :: u).length - 1) + 1 := by
      simp
    have hlast : (a :: b :: u).getD ((a :: b :: u).length - 1) 0 =
        (b :: u).getD ((b :: u).length - 1) 0 := by
      rw [hidx, List.getD_cons_succ]
    rcases List.mem_cons.mp hx with h | h
    · rw [hlast]
      have hbmem : b ∈ b :: u := List.mem_cons_self b u
      have h1 : a ≤ b := List.rel_of_sorted_cons hs b hbmem
      have h2 := sorted_le_last (b :: u) hs1 b hbmem
      subst h
      exact le_trans h1 h2
    · rw [hlast]
      exact sorted_le_last (b :: u) hs1 x h

theorem sortedMetrics_head_eq_min (values : List Int) (m : Int)
    (hm : m ∈ values) (hmle : ∀ x ∈ values, m ≤ x) :
    (sortedMetrics values).getD 0 0 = m := by
  have hne : values ≠ [] := by intro h; subst h; cases hm
  have h1 : m ≤ (sortedMetrics values).getD 0 0 :=
    hmle _ (sortedMetrics_head_mem values hne)
  have h2 : (sortedMetrics values).getD 0 0 ≤ m := by
    have hmem : m ∈ sortedMetrics values := (sortedMetrics_perm values).mem_iff.mpr hm
    exact sorted_head_le (sortedMetrics_sorted values) m hmem
  omega

theorem sortedMetrics_last_eq_max (values : List Int) (M : Int)
    (hM : M ∈ values) (hMle : ∀ x ∈ values, x ≤ M) :
    (sortedMetrics values).getD (values.length - 1) 0 = M := by
  have hne : values ≠ [] := by intro h; subst h; cases hM
  have h1 : (sortedMetrics values).getD (values.length - 1) 0 ≤ M :=
    hMle _ (sortedMetrics_last_mem values hne)
  have h2 : M ≤ (sortedMetrics values).getD (values.length - 1) 0 := by
    have hmem : M ∈ sortedMetrics values := (sortedMetrics_perm values).mem_iff.mpr hM
    have := sorted_le_last (sortedMetrics values) (sortedMetrics_sorted values) M hmem
    rwa [sortedMetrics_length] at this
  omega

/-- C1: with at least two distinct values, the reducer emits the
min-max form below 10 samples and the min-median-max form at 10 or
more, with the true minimum and maximum of the window and the median of
the ascending sort. -/
theorem reduce_json_min_median_max (name unit : String) (values : List Int)
    (m M : Int) (hm : m ∈ values) (hmle : ∀ x ∈ values, m ≤ x)
    (hM : M ∈ values) (hMle : ∀ x ∈ values, x ≤ M) (hne : m ≠ M) :
    houselinux_reduce_fragment name values unit =
      if 10 ≤ values.length then fragMinMedMax name m (specMedian values) M unit
      else fragMinMax name m M unit := by
  have hhead := sortedMetrics_head_eq_min values m hm hmle
  have hlast := sortedMetrics_last_eq_max values M hM hMle
  unfold houselinux_reduce_fragment
  simp only [hhead, hlast, if_neg hne]
  by_cases hc : 10 ≤ values.length
  · simp only [if_pos hc]
    rfl
  · simp only [if_neg hc]

/-- C1 witness: a concrete window with two distinct values and fewer
than 10 samples. -/
theorem reduce_json_min_median_max_witness :
    houselinux_reduce_fragment "busy" [3, 1, 2] "%" =
      if 10 ≤ ([3, 1, 2] : List Int).length then
        fragMinMedMax "busy" 1 (specMedian [3, 1, 2]) 3 "%"
      else fragMinMax "busy" 1 3 "%" :=
  reduce_json_min_median_max "busy" "%" [3, 1, 2] 1 3 (by decide)
    (by decide) (by decide) (by decide) (by decide)

/-- C2: with all values equal, the reducer emits nothing when the common
value is zero and the collapsed single-value form otherwise. -/
theorem reduce_json_constant (name unit : String) (values : List Int) (v : Int)
    (hne : values ≠ []) (hall : ∀ x ∈ values, x = v) :
    houselinux_reduce_fragment name values unit =
      if v = 0 then "" else fragEqual name v unit := by
  have hhead : (sortedMetrics values).getD 0 0 = v :=
    hall _ (sortedMetrics_head_mem values hne)
  have hlast : (sortedMetrics values).getD (values.length - 1) 0 = v :=
    hall _ (sortedMetrics_last_mem values hne)
  unfold houselinux_reduce_fragment
  simp only [hhead, hlast]
  simp

/-- C2 witness: all-equal nonzero window and all-zero window. -/
theorem reduce_json_constant_witness :
    (houselinux_reduce_fragment "dirty" [4, 4, 4] "MB" =
      if (4 : Int) = 0 then "" else fragEqual "dirty" 4 "MB") ∧
    (houselinux_reduce_fragment "dirty" [0, 0] "MB" =
      if (0 : Int) = 0 then "" else fragEqual "dirty" 0 "MB") :=
  ⟨reduce_json_constant "dirty" "MB" [4, 4, 4] 4 (by decide) (by decide),
   reduce_json_constant "dirty" "MB" [0, 0] 0 (by decide) (by decide)⟩

/-- C3: the returned value is the number of characters stored when the
fragment fits in the destination buffer, and 0 when it does not fit. -/
theorem reduce_json_return_convention (size : Nat) (name unit : String)
    (values : List Int) (hne : values ≠ []) :
    ((houselinux_reduce_fragment name values unit).length < size →
      (houselinux_reduce_json size name values unit).ret =
        (houselinux_reduce_json size name values unit).buffer.length ∧
      (houselinux_reduce_json size name values unit).buffer =
        (houselinux_reduce_fragment name values unit).toList) ∧
    (size ≤ (houselinux_reduce_fragment name values unit).length →
      (houselinux_reduce_json size name values unit).ret = 0) := by
  constructor
  · intro hfit
    have hnot : ¬ size ≤ (houselinux_reduce_fragment name values unit).length := by
      omega
    have hbuf : (houselinux_reduce_fragment name values unit).toList.take (size - 1) =
        (houselinux_reduce_fragment name values unit).toList := by
      apply List.take_of_length_le
      have : (houselinux_reduce_fragment name values unit).toList.length =
          (houselinux_reduce_fragment name values unit).length := rfl
      omega
    constructor
    · simp only [houselinux_reduce_json, if_neg hnot, hbuf]
      rfl
    · simp only [houselinux_reduce_json, hbuf]
  · intro hover
    simp only [houselinux_reduce_json, if_pos hover]

/-- C3 witness: a fragment that fits in 64 bytes and does not fit in 4. -/
theorem reduce_json_return_convention_witness :
    ((houselinux_reduce_fragment "busy" [3, 1, 2] "%").length < 64 →
      (houselinux_reduce_json 64 "busy" [3, 1, 2] "%").ret =
        (houselinux_reduce_json 64 "busy" [3, 1, 2] "%").buffer.length ∧
      (houselinux_reduce_json 64 "busy" [3, 1, 2] "%").buffer =
        (houselinux_reduce_fragment "busy" [3, 1, 2] "%").toList) ∧
    (64 ≤ (houselinux_reduce_fragment "busy" [3, 1, 2] "%").length →
      (houselinux_reduce_json 64 "busy" [3, 1, 2] "%").ret = 0) :=
  reduce_json_return_convention 64 "busy" "%" [3, 1, 2] (by decide)

/-! ## C10: reducer precondition and call sites -/

/-- C10: the reducer requires at least one value: a zero count makes
the last index negative, while with a nonempty window the indices 0,
count-1, count/2 and count/2-1 (used when count is at least 10) are in
bounds of the sorted copy; every call site passes a positive constant
span (60 for cpu, disk, net and temp, 5 for storage). -/
theorem reduce_json_precondition (values : List Int) (h : values ≠ []) :
    lastIndex 0 < 0 ∧
    0 < values.length ∧
    (sortedMetrics values).length = values.length ∧
    values.length - 1 < values.length ∧
    values.length / 2 < values.length ∧
    (10 ≤ values.length → values.length / 2 - 1 < values.length) ∧
    HOUSE_CPU_SPAN = 60 ∧ HOUSE_DISKIO_SPAN = 60 ∧ HOUSE_NETIO_SPAN = 60 ∧
    HOUSE_TEMP_SPAN = 60 ∧ HOUSE_MOUNT_SPAN = 5 ∧
    0 < HOUSE_CPU_SPAN ∧ 0 < HOUSE_MOUNT_SPAN := by
  have hpos : 0 < values.length := List.length_pos.mpr h
  have hdiv : values.length / 2 < values.length := Nat.div_lt_self hpos (by decide)
  exact ⟨by decide, hpos, sortedMetrics_length values, by omega, hdiv,
    fun _ => by omega, rfl, rfl, rfl, rfl, rfl, by decide, by decide⟩

/-- C10 witness: a one-element window. -/
theorem reduce_json_precondition_witness :
    lastIndex 0 < 0 ∧
    0 < ([42] : List Int).length ∧
    (sortedMetrics [42]).length = ([42] : List Int).length ∧
    ([42] : List Int).length - 1 < ([42] : List Int).length ∧
    ([42] : List Int).length / 2 < ([42] : List Int).length ∧
    (10 ≤ ([42] : List Int).length →
      ([42] : List Int).length / 2 - 1 < ([42] : List Int).length) ∧
    HOUSE_CPU_SPAN = 60 ∧ HOUSE_DISKIO_SPAN = 60 ∧ HOUSE_NETIO_SPAN = 60 ∧
    HOUSE_TEMP_SPAN = 60 ∧ HOUSE_MOUNT_SPAN = 5 ∧
    0 < HOUSE_CPU_SPAN ∧ 0 < HOUSE_MOUNT_SPAN :=
  reduce_json_precondition [42] (by decide)

/-! ## C7: overflow behavior of the status emitters -/

theorem finishCpu_bounds (size start cursor : Nat) :
    finishCpu size start cursor = 0 ∨ finishCpu size start cursor < size := by
  unfold finishCpu
  split
  · exact Or.inl rfl
  · split
    · exact Or.inl rfl
    · right; omega

theorem cpu_status_bounds (size : Nat) (st : HouseCpuMetrics) :
    houselinux_cpu_status size st = 0 ∨ houselinux_cpu_status size st < size := by
  simp only [houselinux_cpu_status]
  split
  · exact Or.inl rfl
  · split
    · exact Or.inl rfl
    · split
      · exact Or.inl rfl
      · split
        · exact Or.inl rfl
        · split
          · split
            · exact Or.inl rfl
            · exact finishCpu_bounds _ _ _
          · exact finishCpu_bounds _ _ _

theorem storageLoop_bounds (size : Nat) (volumes : List HouseMountPoint) :
    ∀ sep cursor saved, saved < size → saved ≤ cursor →
      saved ≤ (storageLoop size volumes sep cursor saved).2 ∧
      (storageLoop size volumes sep cursor saved).2 < size := by
  induction volumes with
  | nil => intro sep cursor saved h hsc; exact ⟨Nat.le_refl _, h⟩
  | cons v rest ih =>
    intro sep cursor saved h hsc
    have hvc : cursor ≤ volumeCursor cursor sep v := Nat.le_add_right _ _
    have hve : volumeCursor cursor sep v ≤ volumeEnd size cursor sep v := by
      unfold volumeEnd; omega
    simp only [storageLoop]
    by_cases h1 : v.detected = 0 ∨ v.size = 0
    · rw [if_pos h1]; exact ih sep cursor saved h hsc
    · rw [if_neg h1]
      by_cases h2 : size ≤ volumeCursor cursor sep v
      · rw [if_pos h2]; exact ⟨Nat.le_refl _, h⟩
      · rw [if_neg h2]
        by_cases h3 : size ≤ volumeEnd size cursor sep v
        · rw [if_pos h3]; exact ⟨Nat.le_refl _, h⟩
        · rw [if_neg h3]
          have h4 := ih "," (volumeEnd size cursor sep v)
            (volumeEnd size cursor sep v) (by omega) (Nat.le_refl _)
          exact ⟨by omega, h4.2⟩

/-- C7 amended: the cpu status returns 0 or a length within the buffer
(it returns 0 whenever one of its own snprintf results overflows); the
storage status returns 0 only when its header does not fit, and
otherwise returns the nonzero length truncated at the last completely
written volume, never past the buffer. -/
theorem status_buffer_overflow_behavior (size : Nat) (st : HouseCpuMetrics)
    (volumes : List HouseMountPoint) :
    (houselinux_cpu_status size st = 0 ∨ houselinux_cpu_status size st < size) ∧
    (size ≤ storageHeader.length → houselinux_storage_status size volumes = 0) ∧
    (storageHeader.length < size →
      0 < houselinux_storage_status size volumes ∧
      houselinux_storage_status size volumes ≤ size) := by
  refine ⟨cpu_status_bounds size st, ?_, ?_⟩
  · intro h
    unfold houselinux_storage_status
    rw [if_pos h]
  · intro h
    unfold houselinux_storage_status
    rw [if_neg (by omega)]
    have hb := storageLoop_bounds size volumes "" storageHeader.length
      storageHeader.length (by omega) (Nat.le_refl _)
    omega

/-- C7 witness: a 100-byte buffer fits the storage header, so the
returned length is nonzero and within the buffer. -/
theorem status_buffer_overflow_behavior_witness :
    0 < houselinux_storage_status 100 [mountRoot] ∧
    houselinux_storage_status 100 [mountRoot] ≤ 100 :=
  (status_buffer_overflow_behavior 100 cpuMetricsInit [mountRoot]).2.2 (by decide)

/-- C7 counterexample: with a 13-byte buffer the storage status output
does not fit (it needs 52 bytes given a 1000-byte buffer), yet the
function returns the truncated length 13 instead of 0. -/
theorem storage_status_truncated_nonzero :
    houselinux_storage_status 13 [mountRoot] ≠ 0 ∧
    13 < houselinux_storage_status 1000 [mountRoot] :=
  ⟨by decide, by decide⟩

/-! ## C6: cpu sample with nonpositive total delta -/

/-- C6 amended: when the total tick delta is not positive, busy and
iowait are recorded as zero and no division is reached, but the steal
ring is left entirely untouched (it keeps whatever the slot held). -/
theorem cpu_stat_zero_total (value previous : List Int) (index : Nat)
    (m : HouseCpuMetrics) (h : totalDelta value previous ≤ 0) :
    (houselinux_cpu_stat_record value previous index m).busy =
      m.busy.set index 0 ∧
    (houselinux_cpu_stat_record value previous index m).iowait =
      m.iowait.set index 0 ∧
    (houselinux_cpu_stat_record value previous index m).steal = m.steal := by
  simp only [houselinux_cpu_stat_record]
  rw [if_pos h]
  exact ⟨rfl, rfl, rfl⟩

/-- C6 witness: an all-zero delta. -/
theorem cpu_stat_zero_total_witness :
    (houselinux_cpu_stat_record (List.replicate 8 0) (List.replicate 8 0) 0
      cpuStaleSteal).busy = cpuStaleSteal.busy.set 0 0 ∧
    (houselinux_cpu_stat_record (List.replicate 8 0) (List.replicate 8 0) 0
      cpuStaleSteal).iowait = cpuStaleSteal.iowait.set 0 0 ∧
    (houselinux_cpu_stat_record (List.replicate 8 0) (List.replicate 8 0) 0
      cpuStaleSteal).steal = cpuStaleSteal.steal :=
  cpu_stat_zero_total (List.replicate 8 0) (List.replicate 8 0) 0
    cpuStaleSteal (by decide)

/-- C6 counterexample: with a zero total delta the steal slot keeps its
stale value 7 instead of being set to 0 as the claim states. -/
theorem cpu_stat_zero_total_keeps_steal :
    (houselinux_cpu_stat_record (List.replicate 8 0) (List.replicate 8 0) 0
      cpuStaleSteal).steal.getD 0 0 = 7 ∧
    (houselinux_cpu_stat_record (List.replicate 8 0) (List.replicate 8 0) 0
      cpuStaleSteal).busy.getD 0 0 = 0 := by
  exact ⟨by decide, by decide⟩

/-! ## C5: first invocation of the background samplers -/

/-- C5 amended: on the first due invocation the delta-based cpu and
disk families record no ring slot (cpu stores the raw values as its
baseline, diskio keeps the baseline stored by initialization and does
nothing else), while the memory family, which has no counter baseline,
samples and timestamps its slot immediately. -/
theorem background_first_invocation (now : Nat) (raw : List Int)
    (loads : Int × Int × Int) (lines : List DiskLine) (mem : MemInfoRaw)
    (cst : HouseCpuModule) (dst : HouseDiskIOModule) (mst : HouseMemoryModule)
    (hc : cst.nextCollect = 0) (hd : dst.next = 0) (hm : mst.next = 0) :
    (houselinux_cpu_background now raw loads cst).latest = cst.latest ∧
    (houselinux_cpu_background now raw loads cst).previous = raw ∧
    (houselinux_diskio_background now lines dst).devices = dst.devices ∧
    (houselinux_memory_background now mem mst).slots =
      mst.slots.set ((now / HOUSE_MEMORY_PERIOD) % HOUSE_MEMORY_SPAN)
        (memSlotOf now mem) := by
  have hc2 : ¬ now < cst.nextCollect := by rw [hc]; omega
  have hd2 : ¬ now < dst.next := by rw [hd]; omega
  have hm2 : ¬ now < mst.next := by rw [hm]; omega
  unfold houselinux_cpu_background houselinux_diskio_background
    houselinux_memory_background
  rw [if_neg hc2, if_pos hc, if_neg hd2, if_pos hd, if_neg hm2]
  exact ⟨rfl, rfl, rfl, rfl⟩

/-- C5 witness: first invocations at time 100 on freshly started
modules. -/
theorem background_first_invocation_witness :
    (houselinux_cpu_background 100 rawStatSample (10, 5, 1)
      cpuModuleInit).latest = cpuModuleInit.latest ∧
    (houselinux_cpu_background 100 rawStatSample (10, 5, 1)
      cpuModuleInit).previous = rawStatSample ∧
    (houselinux_diskio_background 100 [diskLineSda] diskModuleInit).devices =
      diskModuleInit.devices ∧
    (houselinux_memory_background 100 memInfoSample memModuleInit).slots =
      memModuleInit.slots.set ((100 / HOUSE_MEMORY_PERIOD) % HOUSE_MEMORY_SPAN)
        (memSlotOf 100 memInfoSample) :=
  background_first_invocation 100 rawStatSample (10, 5, 1) [diskLineSda]
    memInfoSample cpuModuleInit diskModuleInit memModuleInit
    (by decide) (by decide) (by decide)

/-- C5 counterexample: the memory family writes a timestamped slot on
its very first background invocation: slot 10 was zero beforehand and
holds timestamp 100 afterwards. -/
theorem memory_first_invocation_writes_slot :
    ((memModuleInit.slots.getD 10 memSlotZero).timestamp = 0) ∧
    ((houselinux_memory_background 100 memInfoSample memModuleInit).slots.getD
      10 memSlotZero).timestamp = 100 :=
  ⟨by decide, by decide⟩

/-! ## C8, C9: sampling ticks of the dynamic device families -/

theorem getD_set_self {α : Type} : ∀ (l : List α) (i : Nat) (x d : α),
    i < l.length → (l.set i x).getD i d = x
  | [], i, x, d, h => absurd h (by simp)
  | _ :: _, 0, x, d, _ => rfl
  | _ :: t, i+1, x, d, h => getD_set_self t i x d (by simpa using h)

theorem set_getD_self {α : Type} : ∀ (l : List α) (i : Nat) (d : α),
    l.set i (l.getD i d) = l
  | [], _, _ => by simp
  | a :: t, 0, d => by simp
  | a :: t, i+1, d => congrArg (a :: ·) (set_getD_self t i d)

theorem map_set_comm {α β : Type} (f : α → β) : ∀ (l : List α) (i : Nat) (x : α),
    (l.set i x).map f = (l.map f).set i (f x)
  | [], _, _ => by simp
  | _ :: _, 0, _ => rfl
  | a :: t, i+1, x => congrArg (f a :: ·) (map_set_comm f t i x)

theorem getD_map_comm {α β : Type} (f : α → β) : ∀ (l : List α) (i : Nat) (d : α),
    (l.map f).getD i (f d) = f (l.getD i d)
  | [], _, _ => rfl
  | _ :: _, 0, _ => rfl
  | _ :: t, i+1, d => getD_map_comm f t i d

theorem diskio_stat_keys (index now : Nat) : ∀ (lines : List DiskLine)
    (devs : List HouseDiskIOMetrics),
    (houselinux_diskio_stat index now lines devs).map diskKey =
      devs.map diskKey
  | [], devs => rfl
  | line :: rest, devs => by
    unfold houselinux_diskio_stat
    cases hf : houselinux_diskio_find devs line.major line.minor with
    | none => exact diskio_stat_keys index now rest devs
    | some i =>
      rw [diskio_stat_keys index now rest, map_set_comm]
      have hkey : diskKey (houselinux_diskio_record line.value now index
          (devs.getD i default)) = diskKey (devs.getD i default) := rfl
      rw [hkey, ← getD_map_comm diskKey devs i default]
      exact set_getD_self (devs.map diskKey) i (diskKey default)

theorem netio_stat_keys (index now : Nat) : ∀ (lines : List NetLine)
    (devs : List HouseNetIOMetrics),
    (houselinux_netio_stat index now lines devs).map netKey = devs.map netKey
  | [], devs => rfl
  | line :: rest, devs => by
    unfold houselinux_netio_stat
    cases hf : houselinux_netio_find devs line.device with
    | none => exact netio_stat_keys index now rest devs
    | some i =>
      rw [netio_stat_keys index now rest, map_set_comm]
      have hkey : netKey (houselinux_netio_record line.value now index
          (devs.getD i default)) = netKey (devs.getD i default) := rfl
      rw [hkey, ← getD_map_comm netKey devs i default]
      exact set_getD_self (devs.map netKey) i (netKey default)

/-- C8 amended: discovery (entry creation) happens only in the
initialization path, where `add` appends one entry; the per-tick stat
walks of the disk and net families match lines against the existing
entries by their stable key, never create or remove entries, and skip
the lines of unknown devices. -/
theorem device_discovery_behavior (lines : List DiskLine)
    (nlines : List NetLine) (index now : Nat)
    (devs : List HouseDiskIOMetrics) (ndevs : List HouseNetIOMetrics)
    (line : DiskLine)
    (hline : houselinux_diskio_find devs line.major line.minor = none)
    (major minor : Int) (device : String) (prev : List Int) :
    (houselinux_diskio_stat index now lines devs).map diskKey =
      devs.map diskKey ∧
    (houselinux_diskio_stat index now lines devs).length = devs.length ∧
    houselinux_diskio_stat index now [line] devs = devs ∧
    (houselinux_netio_stat index now nlines ndevs).map netKey =
      ndevs.map netKey ∧
    (houselinux_netio_stat index now nlines ndevs).length = ndevs.length ∧
    (houselinux_diskio_add devs major minor device prev).length =
      devs.length + 1 := by
  refine ⟨diskio_stat_keys index now lines devs, ?_, ?_,
    netio_stat_keys index now nlines ndevs, ?_, ?_⟩
  · have h := congrArg List.length (diskio_stat_keys index now lines devs)
    simpa using h
  · unfold houselinux_diskio_stat
    rw [hline]
    rfl
  · have h := congrArg List.length (netio_stat_keys index now nlines ndevs)
    simpa using h
  · unfold houselinux_diskio_add
    simp

/-- C8 witness: a tick over the known device sda, an unknown disk line,
a net tick over an unknown line, and an initialization add. -/
theorem device_discovery_behavior_witness :
    (houselinux_diskio_stat 0 5 [diskLineSda] [diskDevSda]).map diskKey =
      [diskDevSda].map diskKey ∧
    (houselinux_diskio_stat 0 5 [diskLineSda] [diskDevSda]).length =
      [diskDevSda].length ∧
    houselinux_diskio_stat 0 5 [diskLineNew] [diskDevSda] = [diskDevSda] ∧
    (houselinux_netio_stat 0 5 [netLineNew] [netDevEth]).map netKey =
      [netDevEth].map netKey ∧
    (houselinux_netio_stat 0 5 [netLineNew] [netDevEth]).length =
      [netDevEth].length ∧
    (houselinux_diskio_add [diskDevSda] 259 0 "nvme0n1"
      (List.replicate 17 0)).length = [diskDevSda].length + 1 :=
  device_discovery_behavior [diskLineSda] [netLineNew] 0 5 [diskDevSda]
    [netDevEth] diskLineNew (by decide) 259 0 "nvme0n1" (List.replicate 17 0)

/-- C8 counterexample: a tick seeing a line for the undiscovered device
(259, 0) creates no entry: the device set is unchanged, no growth
happens during sampling. -/
theorem diskio_stat_no_tick_discovery :
    houselinux_diskio_stat 0 5 [diskLineNew] [diskDevSda] = [diskDevSda] ∧
    (houselinux_diskio_stat 0 5 [diskLineNew] [diskDevSda]).map
      (fun d => (d.major, d.minor)) = [((8 : Int), (0 : Int))] :=
  ⟨by decide, by decide⟩

/-- C9: for a sampled disk line the recorded read and write rates are
the deltas of the completed-reads and completed-writes counters divided
by the 5-second sampling period, truncating toward zero. -/
theorem diskio_record_rates (value : List Int) (now index : Nat)
    (m : HouseDiskIOMetrics) (h1 : index < m.rdrate.length)
    (h2 : index < m.wrrate.length) :
    (houselinux_diskio_record value now index m).rdrate.getD index 0 =
      Int.tdiv (value.getD 0 0 - m.previous.getD 0 0)
        (HOUSE_DISKIO_PERIOD : Int) ∧
    (houselinux_diskio_record value now index m).wrrate.getD index 0 =
      Int.tdiv (value.getD 4 0 - m.previous.getD 4 0)
        (HOUSE_DISKIO_PERIOD : Int) := by
  exact ⟨getD_set_self _ _ _ _ h1, getD_set_self _ _ _ _ h2⟩

/-- C9 witness: a delta of 100 completed reads and 50 completed writes
over one period yields rates 20 and 10. -/
theorem diskio_record_rates_witness :
    ((houselinux_diskio_record diskLineSda.value 5 0 diskDevSda).rdrate.getD 0 0 =
      Int.tdiv (diskLineSda.value.getD 0 0 - diskDevSda.previous.getD 0 0)
        (HOUSE_DISKIO_PERIOD : Int) ∧
    (houselinux_diskio_record diskLineSda.value 5 0 diskDevSda).wrrate.getD 0 0 =
      Int.tdiv (diskLineSda.value.getD 4 0 - diskDevSda.previous.getD 4 0)
        (HOUSE_DISKIO_PERIOD : Int)) ∧
    Int.tdiv (100 - 0) (HOUSE_DISKIO_PERIOD : Int) = 20 :=
  ⟨diskio_record_rates diskLineSda.value 5 0 diskDevSda (by decide) (by decide),
   by decide⟩

/-! ## C4: the windowed detail emitter -/

theorem mod_window_eq {s : Nat} {x y q : Nat}
    (hx1 : q < x) (hx2 : x ≤ q + s) (hy1 : q < y) (hy2 : y ≤ q + s)
    (hmod : x % s = y % s) : x = y := by
  rcases Nat.le_total x y with hle | hle
  · have hdvd : s ∣ y - x := (Nat.modEq_iff_dvd' hle).mp hmod
    rcases Nat.eq_zero_or_pos (y - x) with h0 | hpos
    · omega
    · have := Nat.le_of_dvd hpos hdvd
      omega
  · have hdvd : s ∣ x - y := (Nat.modEq_iff_dvd' hle).mp hmod.symm
    rcases Nat.eq_zero_or_pos (x - y) with h0 | hpos
    · omega
    · have := Nat.le_of_dvd hpos hdvd
      omega

theorem mod_cycle_index (s : Nat) (hs : 0 < s) (q i : Nat) (hi : i < s) :
    (q + (i + s - q % s) % s) % s = i := by
  have ha : q % s < s := Nat.mod_lt _ hs
  rw [Nat.add_mod q, Nat.mod_eq_of_lt (Nat.mod_lt _ hs), ← Nat.add_mod]
  have hq : q + (i + s - q % s) = i + s + s * (q / s) := by
    have hdm := Nat.div_add_mod q s
    omega
  rw [hq, Nat.add_mul_mod_self_left, Nat.add_mod_right, Nat.mod_eq_of_lt hi]

theorem detailsSlotFn_eq_some {since now period span : Nat}
    {timestamps : List Nat} {values : List Int} {n : Nat} {p : Nat × Int} :
    detailsSlotFn since now period span timestamps values n = some p ↔
      (timestamps.getD ((now / period + 1 + n) % span) 0 ≠ 0 ∧
       since < timestamps.getD ((now / period + 1 + n) % span) 0 ∧
       p = (timestamps.getD ((now / period + 1 + n) % span) 0,
            values.getD ((now / period + 1 + n) % span) 0)) := by
  simp only [detailsSlotFn]
  by_cases h0 : timestamps.getD ((now / period + 1 + n) % span) 0 = 0
  · rw [if_pos h0]
    constructor
    · intro h; cases h
    · intro h; exact absurd h0 h.1
  · rw [if_neg h0]
    by_cases hcut : since ≠ 0 ∧
        timestamps.getD ((now / period + 1 + n) % span) 0 ≤ since
    · rw [if_pos hcut]
      constructor
      · intro h; cases h
      · intro h; omega
    · rw [if_neg hcut]
      constructor
      · intro h
        injection h with h
        exact ⟨h0, by omega, h.symm⟩
      · intro h
        rw [h.2.2]

theorem details_slot_quotient (now period span : Nat) (timestamps : List Nat)
    (hv : RingValid now period span timestamps) (n : Nat) (hn : n < span)
    (ht : timestamps.getD ((now / period + 1 + n) % span) 0 ≠ 0) :
    (timestamps.getD ((now / period + 1 + n) % span) 0) / period + span =
      now / period + 1 + n := by
  obtain ⟨hp, hs, hslots⟩ := hv
  have hilt : (now / period + 1 + n) % span < span := Nat.mod_lt _ hs
  rcases hslots _ hilt with h0 | ⟨hle, hwin, hmod⟩
  · exact absurd h0 ht
  · have huQ : timestamps.getD ((now / period + 1 + n) % span) 0 / period ≤
        now / period := Nat.div_le_div_right hle
    refine mod_window_eq (s := span) (q := now / period) (by omega) (by omega)
      (by omega) (by omega) ?_
    rw [Nat.add_mod_right, hmod]

/-- C4 (modelled from the spec, see `detailsSlotFn`): under the
ring-buffer invariant the detail emitter emits exactly the populated
slots newer than `since` (a zero timestamp is skipped, `since = 0`
means no cutoff), the emitted timestamps are strictly ascending, and
`since = now` yields an empty set. -/
theorem reduce_details_spec (since now period span : Nat)
    (timestamps : List Nat) (values : List Int)
    (hv : RingValid now period span timestamps) :
    (∀ t v, (t, v) ∈ houselinux_reduce_details_entries since now period span
        timestamps values ↔
      ∃ i, i < span ∧ timestamps.getD i 0 = t ∧ values.getD i 0 = v ∧
        t ≠ 0 ∧ since < t) ∧
    List.Pairwise (· < ·) ((houselinux_reduce_details_entries since now period
      span timestamps values).map Prod.fst) ∧
    (since = now → houselinux_reduce_details_entries since now period span
      timestamps values = []) := by
  obtain ⟨hp, hs, hslots⟩ := hv
  refine ⟨?_, ?_, ?_⟩
  · intro t v
    constructor
    · intro hmem
      obtain ⟨n, hn, hfn⟩ :=
        List.mem_filterMap.mp hmem
      obtain ⟨h0, hlt, hpq⟩ := detailsSlotFn_eq_some.mp hfn
      rw [Prod.mk.injEq] at hpq
      exact ⟨(now / period + 1 + n) % span, Nat.mod_lt _ hs, hpq.1.symm,
        hpq.2.symm, by omega, by omega⟩
    · rintro ⟨i, hi, hts, hvs, ht0, hst⟩
      apply List.mem_filterMap.mpr
      refine ⟨(i + span - (now / period + 1) % span) % span,
        List.mem_range.mpr (Nat.mod_lt _ hs), ?_⟩
      apply detailsSlotFn_eq_some.mpr
      rw [mod_cycle_index span hs (now / period + 1) i hi, hts, hvs]
      exact ⟨ht0, hst, rfl⟩
  · unfold houselinux_reduce_details_entries
    rw [List.map_filterMap, List.pairwise_filterMap]
    refine List.Pairwise.imp_of_mem ?_ (List.pairwise_lt_range span)
    intro m n hm hn hmn x hx y hy
    cases hfm : detailsSlotFn since now period span timestamps values m with
    | none => rw [hfm] at hx; simp at hx
    | some pm =>
      cases hfn : detailsSlotFn since now period span timestamps values n with
      | none => rw [hfn] at hy; simp at hy
      | some pn =>
        rw [hfm] at hx
        rw [hfn] at hy
        have hx3 : pm.1 = x := Option.some_inj.mp hx
        have hy3 : pn.1 = y := Option.some_inj.mp hy
        obtain ⟨h0m, hltm, hpm⟩ := detailsSlotFn_eq_some.mp hfm
        obtain ⟨h0n, hltn, hpn⟩ := detailsSlotFn_eq_some.mp hfn
        have hqm := details_slot_quotient now period span timestamps
          ⟨hp, hs, hslots⟩ m (List.mem_range.mp hm) h0m
        have hqn := details_slot_quotient now period span timestamps
          ⟨hp, hs, hslots⟩ n (List.mem_range.mp hn) h0n
        have hdiv : timestamps.getD ((now / period + 1 + m) % span) 0 / period <
            timestamps.getD ((now / period + 1 + n) % span) 0 / period := by
          omega
        have hlt := Nat.lt_of_div_lt_div hdiv
        rw [← hx3, ← hy3, hpm, hpn]
        exact hlt
  · intro hsn
    apply List.filterMap_eq_nil_iff.mpr
    intro n hn
    cases hfa : detailsSlotFn since now period span timestamps values n with
    | none => rfl
    | some p =>
      exfalso
      obtain ⟨h0, hlt, hpq⟩ := detailsSlotFn_eq_some.mp hfa
      have hilt : (now / period + 1 + n) % span < span := Nat.mod_lt _ hs
      rcases hslots _ hilt with hz | ⟨hle, _, _⟩
      · exact h0 hz
      · omega

/-- C4 witness: a two-slot ring at now = 10 with period 5 holding
timestamps 9 and 10, walked with no cutoff. -/
theorem reduce_details_spec_witness :
    (∀ t v, (t, v) ∈ houselinux_reduce_details_entries 0 10 5 2 [10, 9]
        [100, 90] ↔
      ∃ i, i < 2 ∧ ([10, 9] : List Nat).getD i 0 = t ∧
        ([100, 90] : List Int).getD i 0 = v ∧ t ≠ 0 ∧ 0 < t) ∧
    List.Pairwise (· < ·) ((houselinux_reduce_details_entries 0 10 5 2 [10, 9]
      [100, 90]).map Prod.fst) ∧
    ((0 : Nat) = 10 → houselinux_reduce_details_entries 0 10 5 2 [10, 9]
      [100, 90] = []) :=
  reduce_details_spec 0 10 5 2 [10, 9] [100, 90]
    ⟨by decide, by decide, by decide⟩
